import Mathlib

/-!
Verification development for the `verticaextractor` repository.

The Rust sources under `src/` are shallowly embedded below:
machine integers become `Nat`/`Int` with explicit `% 2^w` where the Rust
types truncate (arithmetic follows a release build, i.e. wrapping);
fallible code (`?`-propagation, `panic!`-free modelling of `unwrap`
and index panics) returns `Option`; the output file handle becomes an
explicit sink state threaded through the code.
-/

/- ------------------------------------------------------------------ -/
/- Little-endian byte helpers: `to_le_bytes` on u16 / u32 / u64 / i64. -/
/- ------------------------------------------------------------------ -/

/-- Bytes of `n` as a `u16`, little-endian (`u16::to_le_bytes`). -/
def u16leBytes (n : Nat) : List Nat :=
  [n % 256, n / 256 % 256]

/-- Bytes of `n` as a `u32`, little-endian (`u32::to_le_bytes`).
Higher bits of `n` are dropped exactly as a Rust `as u32` cast would. -/
def u32leBytes (n : Nat) : List Nat :=
  [n % 256, n / 256 % 256, n / 65536 % 256, n / 16777216 % 256]

/-- Bytes of `n` as a `u64`, little-endian (`u64::to_le_bytes`). -/
def u64leBytes (n : Nat) : List Nat :=
  [n % 256, n / 2 ^ 8 % 256, n / 2 ^ 16 % 256, n / 2 ^ 24 % 256,
   n / 2 ^ 32 % 256, n / 2 ^ 40 % 256, n / 2 ^ 48 % 256, n / 2 ^ 56 % 256]

/-- Bytes of `z` as an `i64`, little-endian two's complement
(`i64::to_le_bytes`). -/
def i64leBytes (z : Int) : List Nat :=
  u64leBytes (Int.emod z (2 ^ 64)).toNat

/-- Bytes of `n` as a `u128`, big-endian (`u128::to_be_bytes`). -/
def u128beBytes (n : Nat) : List Nat :=
  [n / 2 ^ 120 % 256, n / 2 ^ 112 % 256, n / 2 ^ 104 % 256, n / 2 ^ 96 % 256,
   n / 2 ^ 88 % 256, n / 2 ^ 80 % 256, n / 2 ^ 72 % 256, n / 2 ^ 64 % 256,
   n / 2 ^ 56 % 256, n / 2 ^ 48 % 256, n / 2 ^ 40 % 256, n / 2 ^ 32 % 256,
   n / 2 ^ 24 % 256, n / 2 ^ 16 % 256, n / 2 ^ 8 % 256, n % 256]

/- ------------------------------------------------------------------ -/
/- `src/sql_data_type.rs`: the 14-tag logical type and `from_string`.  -/
/- ------------------------------------------------------------------ -/

/-- The closed set of logical SQL types (`enum SqlDataType`,
src/sql_data_type.rs lines 7-22). -/
inductive SqlDataType where
  | Integer
  | Float
  | Char
  | Varchar
  | Boolean
  | Date
  | Timestamp
  | TimestampTz
  | Time
  | TimeTz
  | Varbinary
  | Binary
  | Numeric
  | Interval
  deriving DecidableEq, Repr

/-- Greedy close-paren search used to embed the regex `\(.+\)`:
given the characters after an opening parenthesis, return the largest
index `j` such that the character at `j` is a close parenthesis and no
newline occurs before it (the `.` of the regex does not match `\n`). -/
def scanClose : List Char → Option Nat
  | [] => Option.none
  | x :: xs =>
    if x = '\n' then Option.none
    else
      match scanClose xs with
      | Option.some j => Option.some (j + 1)
      | Option.none => if x = ')' then Option.some 0 else Option.none

/-- End of a greedy match of `\(.+\)` starting just after a `(`:
the `.+` must consume at least one character, so the close parenthesis
must sit at index `1` or later. -/
def matchEnd (rest : List Char) : Option Nat :=
  match scanClose rest with
  | Option.some j => if 1 ≤ j then Option.some j else Option.none
  | Option.none => Option.none

/-- Leftmost greedy match of the pattern `\(.+\)` in a character list:
returns the index of the `(` and of the matching `)`.  This embeds the
behaviour of `PAREN_REGEX.replace(string, "")` finding its first match
(src/sql_data_type.rs lines 27, 30; the `regex` crate uses leftmost
match starts with greedy repetition). -/
def findMatch : List Char → Option (Nat × Nat)
  | [] => Option.none
  | c :: rest =>
    if c = '(' then
      match matchEnd rest with
      | Option.some j => Option.some (0, j + 1)
      | Option.none => (findMatch rest).map (fun p => (p.1 + 1, p.2 + 1))
    else (findMatch rest).map (fun p => (p.1 + 1, p.2 + 1))

/-- Remove the first (leftmost, greedy) match of `\(.+\)`, i.e.
`PAREN_REGEX.replace(string, "")`. -/
def replaceFirst (l : List Char) : List Char :=
  match findMatch l with
  | Option.none => l
  | Option.some (i, e) => l.take i ++ l.drop (e + 1)

/-- Character-wise lowercasing, modelling `str::to_lowercase` on the
alphabet that can reach the 14 ASCII tokens below. -/
def toLowerStr (l : List Char) : List Char := l.map Char.toLower

/-- The final `match` block of `SqlDataType::from_string`
(src/sql_data_type.rs lines 32-48): exact string equality against the
14 tokens; anything else panics with "unknown data type", modelled as
`Option.none`. -/
def tokenOf (t : String) : Option SqlDataType :=
  if t = "int" then Option.some SqlDataType.Integer
  else if t = "float" then Option.some SqlDataType.Float
  else if t = "char" then Option.some SqlDataType.Char
  else if t = "varchar" then Option.some SqlDataType.Varchar
  else if t = "boolean" then Option.some SqlDataType.Boolean
  else if t = "date" then Option.some SqlDataType.Date
  else if t = "timestamp" then Option.some SqlDataType.Timestamp
  else if t = "timestamptz" then Option.some SqlDataType.TimestampTz
  else if t = "time" then Option.some SqlDataType.Time
  else if t = "timetz" then Option.some SqlDataType.TimeTz
  else if t = "varbinary" then Option.some SqlDataType.Varbinary
  else if t = "binary" then Option.some SqlDataType.Binary
  else if t = "numeric" then Option.some SqlDataType.Numeric
  else if t = "interval" then Option.some SqlDataType.Interval
  else Option.none

/-- `SqlDataType::from_string` (src/sql_data_type.rs lines 25-49):
strip the first match of `\(.+\)`, lowercase, then map the token. -/
def SqlDataType.from_string (s : String) : Option SqlDataType :=
  tokenOf (String.mk (toLowerStr (replaceFirst s.data)))

/-- The 14 token/tag pairs of the `match` in `from_string`, as data. -/
def tokenTable : List (String × SqlDataType) :=
  [("int", SqlDataType.Integer), ("float", SqlDataType.Float),
   ("char", SqlDataType.Char), ("varchar", SqlDataType.Varchar),
   ("boolean", SqlDataType.Boolean), ("date", SqlDataType.Date),
   ("timestamp", SqlDataType.Timestamp), ("timestamptz", SqlDataType.TimestampTz),
   ("time", SqlDataType.Time), ("timetz", SqlDataType.TimeTz),
   ("varbinary", SqlDataType.Varbinary), ("binary", SqlDataType.Binary),
   ("numeric", SqlDataType.Numeric), ("interval", SqlDataType.Interval)]

/-- Non-greedy close-paren search: index of the first close parenthesis
reachable without crossing a newline.  Used only to state what the
specification's words "strips the first parenthesized region
non-greedily" would compute. -/
def scanCloseFirst : List Char → Option Nat
  | [] => Option.none
  | x :: xs =>
    if x = '\n' then Option.none
    else if x = ')' then Option.some 0
    else (scanCloseFirst xs).map (fun j => j + 1)

/-- Modelled from the spec: non-greedy match end for `\(.+?\)` — the
lazy `.+?` consumes at least one character, then the first reachable
close parenthesis ends the match. -/
def matchEndNG (rest : List Char) : Option Nat :=
  match rest with
  | [] => Option.none
  | x :: xs =>
    if x = '\n' then Option.none
    else (scanCloseFirst xs).map (fun j => j + 1)

/-- Modelled from the spec: leftmost non-greedy match of a
parenthesized region. -/
def findMatchNG : List Char → Option (Nat × Nat)
  | [] => Option.none
  | c :: rest =>
    if c = '(' then
      match matchEndNG rest with
      | Option.some j => Option.some (0, j + 1)
      | Option.none => (findMatchNG rest).map (fun p => (p.1 + 1, p.2 + 1))
    else (findMatchNG rest).map (fun p => (p.1 + 1, p.2 + 1))

/-- Modelled from the spec: strip the first parenthesized region
non-greedily. -/
def replaceFirstNG (l : List Char) : List Char :=
  match findMatchNG l with
  | Option.none => l
  | Option.some (i, e) => l.take i ++ l.drop (e + 1)

/-- Modelled from the spec's words for claim C8: classify with a
NON-greedy strip of the first parenthesized region, then lowercase and
map by exact equality. -/
def classifyNonGreedy (s : String) : Option SqlDataType :=
  tokenOf (String.mk (toLowerStr (replaceFirstNG s.data)))

/- ------------------------------------------------------------------ -/
/- `src/column_type.rs`: the per-column metadata record.               -/
/- ------------------------------------------------------------------ -/

/-- `struct ColumnType` (src/column_type.rs lines 4-10).  `width`,
`precision` and `scale` are `u16` in the source; values are carried as
`Nat` and truncated where the source's types force it. -/
structure ColumnType where
  name : String
  data_type : SqlDataType
  width : Nat
  precision : Option Nat
  scale : Option Nat
  deriving DecidableEq, Repr

/-- Digit-list value, most significant first. -/
def digitsToNat (l : List Char) : Nat :=
  l.foldl (fun acc c => acc * 10 + (c.toNat - '0'.toNat)) 0

/-- `u16::from_str` / `str::parse::<u16>`: optional leading `+`, at
least one ASCII digit, value below `2^16`; anything else is an error
(`Option.none`). -/
def parseU16 (s : String) : Option Nat :=
  let cs :=
    match s.data with
    | '+' :: r => r
    | r => r
  if cs ≠ [] ∧ cs.all Char.isDigit then
    let n := digitsToNat cs
    if n < 2 ^ 16 then Option.some n else Option.none
  else Option.none

/-- `u128::from_str` (used at src/lib.rs line 337): optional leading
`+`, ASCII digits, value below `2^128`.  A leading `-` is rejected —
`u128` is unsigned. -/
def parseU128 (s : String) : Option Nat :=
  let cs :=
    match s.data with
    | '+' :: r => r
    | r => r
  if cs ≠ [] ∧ cs.all Char.isDigit then
    let n := digitsToNat cs
    if n < 2 ^ 128 then Option.some n else Option.none
  else Option.none

/-- `ColumnType::new` (src/column_type.rs lines 13-38).  The source
indexes `values[0]`..`values[6]` and `unwrap`s every parse; any panic
is modelled as `Option.none`. -/
def ColumnType.new (values : List String) : Option ColumnType :=
  if values.length < 7 then Option.none
  else
    let v4 := values.getD 4 ""
    let scaleStep : Option (Option Nat) :=
      if v4 = "" then Option.some Option.none
      else (parseU16 v4).map Option.some
    match scaleStep with
    | Option.none => Option.none
    | Option.some scale =>
      let v3 := values.getD 3 ""
      let v5 := values.getD 5 ""
      let v6 := values.getD 6 ""
      let precisionStep : Option (Option Nat) :=
        if v3 ≠ "" then (parseU16 v3).map Option.some
        else if v5 ≠ "" then (parseU16 v5).map Option.some
        else if v6 ≠ "" then (parseU16 v6).map Option.some
        else Option.some Option.none
      match precisionStep with
      | Option.none => Option.none
      | Option.some precision =>
        match SqlDataType.from_string (values.getD 1 ""), parseU16 (values.getD 2 "") with
        | Option.some dt, Option.some w =>
          Option.some ⟨values.getD 0 "", dt, w, precision, scale⟩
        | _, _ => Option.none

/- ------------------------------------------------------------------ -/
/- `src/lib.rs`: header encoder.                                       -/
/- ------------------------------------------------------------------ -/

/-- The 11-byte file magic `FILE_HEADER` (src/lib.rs lines 28-30). -/
def FILE_HEADER : List Nat :=
  [0x4E, 0x41, 0x54, 0x49, 0x56, 0x45, 0x0A, 0xFF, 0x0D, 0x0A, 0x00]

/-- Per-column on-wire width (the `match` inside
`generate_column_definitions`, src/lib.rs lines 469-489), as the `u32`
value that is serialized. -/
def onWireWidth (ct : ColumnType) : Nat :=
  match ct.data_type with
  | SqlDataType.Integer | SqlDataType.Char | SqlDataType.Binary => ct.width
  | SqlDataType.Varchar | SqlDataType.Varbinary => 4294967295
  | SqlDataType.Boolean => 1
  | SqlDataType.Float | SqlDataType.Date | SqlDataType.Timestamp
  | SqlDataType.TimestampTz | SqlDataType.Time | SqlDataType.TimeTz
  | SqlDataType.Interval => 8
  | SqlDataType.Numeric =>
    match ct.precision with
    | Option.some precision => ((precision / 19) + 1) * 8
    | Option.none => 0

/-- `generate_column_definitions` (src/lib.rs lines 458-500): version
`u16 = 1`, one filler byte, `u16` column count, one `u32` width per
column; the whole block is prefixed with its own byte length as `u32`. -/
def descriptorBytes (column_types : List ColumnType) : List Nat :=
  u16leBytes 1 ++ [0] ++ u16leBytes (column_types.length % 2 ^ 16) ++
    (column_types.map (fun ct => u32leBytes (onWireWidth ct))).flatten

/-- The length-prefixed block returned by `generate_column_definitions`
(src/lib.rs lines 494-499): the accumulated `bytes` preceded by their
own count as a `u32`. -/
def generate_column_definitions (column_types : List ColumnType) : List Nat :=
  u32leBytes (descriptorBytes column_types).length ++ descriptorBytes column_types

/- ------------------------------------------------------------------ -/
/- `src/lib.rs`: null bitmap builder.                                  -/
/- ------------------------------------------------------------------ -/

/-- The `bytes_needed` computation of `create_nulls_bitmap`
(src/lib.rs lines 437-438): `cols / 8` plus one if `cols % 8 != 0`.
This value is computed by the source and then never used. -/
def bytes_needed (cols : Int) : Int :=
  Int.div cols 8 + if Int.emod cols 8 ≠ 0 then 1 else 0

/-- One byte of the bitmap (inner loop of `create_nulls_bitmap`,
src/lib.rs lines 443-450): bit `|i - 7|` is set for each null entry
`i` of an (at most 8 entry) chunk. -/
def bitmap_byte (subset : List Bool) : Nat :=
  (List.range subset.length).foldl
    (fun byte i =>
      if subset.getD i false then byte ||| (1 <<< ((i : Int) - 7).natAbs) else byte)
    0

/-- `create_nulls_bitmap` (src/lib.rs lines 436-456).  The emission
loop runs over `nulls.len() / 8` complete chunks only; the `cols`
argument feeds the unused `bytes_needed` value. -/
def create_nulls_bitmap (cols : Int) (nulls : List Bool) : List Nat :=
  (List.range (nulls.length / 8)).map
    (fun i => bitmap_byte ((nulls.drop (i * 8)).take 8))

/- ------------------------------------------------------------------ -/
/- `src/lib.rs`: the Numeric value encoder.                            -/
/- ------------------------------------------------------------------ -/

/-- `negate` (src/lib.rs lines 430-434): XOR the first `head` bytes
with `0xFF`. -/
def negate (bytes : List Nat) (head : Nat) : List Nat :=
  bytes.enum.map (fun p => if p.1 < head then p.2 ^^^ 0xFF else p.2)

/-- The Numeric arm of `extract` (src/lib.rs lines 336-378) for a
non-null fetched text `value`, with the column's `scale` and `width`.
`u128` arithmetic wraps modulo `2^128` as in a release build; the
`vec![0; width - byte_len]` allocation panics (debug) or aborts
(release) when `byte_len > width`, modelled as `Option.none`.  Note
`num` is a `u128`, so `num < 0` — kept verbatim below — never holds. -/
def numeric_encode (value : String) (scale : Option Nat) (width : Nat) :
    Option (List Nat) :=
  match parseU128 value with
  | Option.none => Option.none
  | Option.some num =>
    let exp :=
      match scale with
      | Option.none => 0
      | Option.some exp => exp
    let mul := (10 ^ exp) % 2 ^ 128
    let unscaled := num * mul % 2 ^ 128
    let unscaled_bytes := u128beBytes unscaled
    let unscaled_bytes :=
      ((unscaled_bytes.reverse.dropWhile (fun b => b = 0))).reverse
    let byte_len := unscaled_bytes.length
    if width < byte_len then Option.none
    else
      let padded_bytes := List.replicate (width - byte_len) 0 ++ unscaled_bytes
      let padded_bytes :=
        if num < 0 then negate padded_bytes (width - byte_len) else padded_bytes
      let final_bytes :=
        ((List.range (padded_bytes.length / 8)).map
          (fun i => ((padded_bytes.drop (i * 8)).take 8).reverse)).flatten
      Option.some final_bytes

/- ------------------------------------------------------------------ -/
/- Calendar arithmetic modelling the `chrono` calls in `extract`.      -/
/- ------------------------------------------------------------------ -/

/-- Gregorian leap year. -/
def isLeapYear (y : Int) : Bool :=
  (Int.emod y 4 = 0 ∧ Int.emod y 100 ≠ 0) ∨ Int.emod y 400 = 0

/-- Days in a month of the proleptic Gregorian calendar. -/
def daysInMonth (y : Int) (m : Nat) : Nat :=
  if m = 2 then (if isLeapYear y then 29 else 28)
  else if m = 4 ∨ m = 6 ∨ m = 9 ∨ m = 11 then 30
  else 31

/-- Validity of `(y, m, d)` as required by `NaiveDate::from_ymd`,
which panics on out-of-range components. -/
def validYmd (y : Int) (m d : Nat) : Bool :=
  1 ≤ m ∧ m ≤ 12 ∧ 1 ≤ d ∧ d ≤ daysInMonth y m

/-- Day number of a civil date (days since 1970-01-01, proleptic
Gregorian); models the value underlying `chrono::NaiveDate` so that
date differences agree with `chrono` on valid dates. -/
def daysFromCivil (y : Int) (m d : Nat) : Int :=
  let y2 : Int := if m ≤ 2 then y - 1 else y
  let era : Int := Int.fdiv y2 400
  let yoe : Nat := (y2 - era * 400).toNat
  let mp : Nat := (m + 9) % 12
  let doy : Nat := (153 * mp + 2) / 5 + d - 1
  let doe : Nat := yoe * 365 + yoe / 4 - yoe / 100 + doy
  era * 146097 + (doe : Int) - 719468

/-- `chrono::Duration::num_microseconds` on an exact nanosecond count:
whole microseconds (truncated toward zero), `Option.none` when the
microsecond count overflows `i64`. -/
def numMicroseconds (nanos : Int) : Option Int :=
  let micros := Int.tdiv nanos 1000
  if micros < -(2 ^ 63) ∨ 2 ^ 63 ≤ micros then Option.none else Option.some micros

/-- The Timestamp / TimestampTz arm of `extract` for a non-null value
(src/lib.rs lines 214-235): microseconds between the fetched broken-
down time and `2000-01-01T00:00:00`, with `num_microseconds` overflow
mapped to `0`, emitted as `i64` little-endian.  `from_ymd` /
`and_hms_nano` panics on invalid components are `Option.none`; the
ODBC fraction field is nanoseconds and is taken below `10^9` where
`chrono`'s arithmetic is plain. -/
def timestampBytes (y : Int) (mo d h mi s frac : Nat) : Option (List Nat) :=
  if validYmd y mo d ∧ h < 24 ∧ mi < 60 ∧ s < 60 ∧ frac < 1000000000 then
    let days := daysFromCivil y mo d - daysFromCivil 2000 1 1
    let nanos := (days * 86400 + ((h * 3600 + mi * 60 + s : Nat) : Int)) * 1000000000 + (frac : Int)
    let diff :=
      match numMicroseconds nanos with
      | Option.none => 0
      | Option.some diff => diff
    Option.some (i64leBytes diff)
  else Option.none

/-- The Date arm for a non-null value (src/lib.rs lines 193-204):
signed day count since 2000-01-01, `i64` little-endian. -/
def dateBytes (y : Int) (m d : Nat) : Option (List Nat) :=
  if validYmd y m d then
    let diff := daysFromCivil y m d - daysFromCivil 2000 1 1
    Option.some (i64leBytes diff)
  else Option.none

/-- The Time arm for a non-null value (src/lib.rs lines 245-259):
microseconds since midnight, `i64` little-endian. -/
def timeBytes (h mi s : Nat) : Option (List Nat) :=
  if h < 24 ∧ mi < 60 ∧ s < 60 then
    let diff :=
      match numMicroseconds (((h * 3600 + mi * 60 + s : Nat) : Int) * 1000000000) with
      | Option.none => 0
      | Option.some diff => diff
    Option.some (i64leBytes diff)
  else Option.none

/-- Wrap an integer into the `i64` value range (two's complement). -/
def wrapI64 (z : Int) : Int :=
  Int.emod (z + 2 ^ 63) (2 ^ 64) - 2 ^ 63

/-- The TimeTz arm for a non-null value (src/lib.rs lines 270-298):
the fetched raw bytes carry `u16` hour, minute, second (LE); the
process-local UTC offset plus 86400 seconds is packed below the
microsecond count shifted left by 24 bits.  The offset is an input
here since it comes from `Local::now()`. -/
def timeTzBytes (tzDiffSeconds : Int) (raw : List Nat) : Option (List Nat) :=
  if raw.length < 6 then Option.none
  else
    let hour := raw.getD 0 0 + raw.getD 1 0 * 256
    let minute := raw.getD 2 0 + raw.getD 3 0 * 256
    let second := raw.getD 4 0 + raw.getD 5 0 * 256
    if hour < 24 ∧ minute < 60 ∧ second < 60 then
      let diff :=
        match numMicroseconds (((hour * 3600 + minute * 60 + second : Nat) : Int) * 1000000000) with
        | Option.none => 0
        | Option.some diff => diff
      let total := wrapI64 (wrapI64 (diff * 2 ^ 24) + tzDiffSeconds)
      Option.some (i64leBytes total)
    else Option.none

/-- UTF-8 bytes of one character (models `str::as_bytes`). -/
def utf8Bytes (c : Char) : List Nat :=
  let n := c.toNat
  if n < 0x80 then [n]
  else if n < 0x800 then
    [0xC0 ||| (n >>> 6), 0x80 ||| (n &&& 0x3F)]
  else if n < 0x10000 then
    [0xE0 ||| (n >>> 12), 0x80 ||| ((n >>> 6) &&& 0x3F), 0x80 ||| (n &&& 0x3F)]
  else
    [0xF0 ||| (n >>> 18), 0x80 ||| ((n >>> 12) &&& 0x3F),
     0x80 ||| ((n >>> 6) &&& 0x3F), 0x80 ||| (n &&& 0x3F)]

/-- UTF-8 bytes of a string. -/
def strBytes (s : String) : List Nat :=
  (s.data.map utf8Bytes).flatten

/- ------------------------------------------------------------------ -/
/- `extract`: per-column fetched values and the value encoder.         -/
/- ------------------------------------------------------------------ -/

/-- One typed ODBC fetch result (`cursor.get_data::<T>`): SQL NULL or
a payload of the shape each arm of `extract` requests.  `f64` values
are carried as their IEEE-754 bit pattern, which is exactly what
`f64::to_le_bytes` serializes. -/
inductive Fetched where
  | null
  | int (n : Int)
  | float (bits : Nat)
  | str (s : String)
  | bool (b : Bool)
  | date (y : Int) (m d : Nat)
  | timestamp (y : Int) (mo d h mi s frac : Nat)
  | time (h mi s : Nat)
  | raw (bs : List Nat)
  deriving Repr

/-- The per-column dispatch of `extract` (src/lib.rs lines 79-381):
given the column's metadata, the process-local time-zone input used by
the TimeTz arm, and the fetched value, produce the null flag and the
encoded bytes.  `Option.none` models a propagated error or panic; a
payload whose shape is not the one the arm's `get_data::<T>` demands
cannot arise through ODBC and is also `Option.none`. -/
def extractValue (ct : ColumnType) (tzDiffSeconds : Int) (f : Fetched) :
    Option (Bool × List Nat) :=
  match ct.data_type, f with
  | _, Fetched.null => Option.some (true, [])
  | SqlDataType.Integer, Fetched.int n => Option.some (false, i64leBytes n)
  | SqlDataType.Interval, Fetched.raw bs => Option.some (false, bs)
  | SqlDataType.Float, Fetched.float bits => Option.some (false, u64leBytes (bits % 2 ^ 64))
  | SqlDataType.Char, Fetched.str s => Option.some (false, strBytes s)
  | SqlDataType.Varchar, Fetched.str s =>
    let bytes := strBytes s
    Option.some (false, u32leBytes bytes.length ++ bytes)
  | SqlDataType.Boolean, Fetched.bool b => Option.some (false, [if b then 1 else 0])
  | SqlDataType.Date, Fetched.date y m d =>
    (dateBytes y m d).map (fun bs => (false, bs))
  | SqlDataType.Timestamp, Fetched.timestamp y mo d h mi s frac
  | SqlDataType.TimestampTz, Fetched.timestamp y mo d h mi s frac =>
    (timestampBytes y mo d h mi s frac).map (fun bs => (false, bs))
  | SqlDataType.Time, Fetched.time h mi s =>
    (timeBytes h mi s).map (fun bs => (false, bs))
  | SqlDataType.TimeTz, Fetched.raw bs =>
    (timeTzBytes tzDiffSeconds bs).map (fun out => (false, out))
  | SqlDataType.Varbinary, Fetched.raw bs =>
    Option.some (false, u32leBytes bs.length ++ bs)
  | SqlDataType.Binary, Fetched.raw bs => Option.some (false, bs)
  | SqlDataType.Numeric, Fetched.str s =>
    (numeric_encode s ct.scale ct.width).map (fun bs => (false, bs))
  | _, _ => Option.none

/- ------------------------------------------------------------------ -/
/- `extract`: output sink, row loop and the surrounding control flow.  -/
/- ------------------------------------------------------------------ -/

/-- Failure injection for the output file: `ok n` says whether the
`n`-th write call succeeds. -/
structure Sink where
  ok : Nat → Bool

/-- State of the output file: how many write calls have happened and
which bytes actually reached the file. -/
structure SinkState where
  idx : Nat
  written : List Nat
  deriving DecidableEq, Repr

/-- One `File::write` / `write_all` call: on success the bytes are
appended and the byte count returned, on failure an `io::Error`
(modelled as `Except.error ()`) is returned.  Every call advances the
write counter. -/
def sink_write (s : Sink) (st : SinkState) (bs : List Nat) :
    SinkState × Except Unit Nat :=
  if s.ok st.idx then (⟨st.idx + 1, st.written ++ bs⟩, Except.ok bs.length)
  else (⟨st.idx + 1, st.written⟩, Except.error ())

/-- The per-row column loop of `extract` (src/lib.rs lines 76-384):
walk the columns, set `nulls[i]` for SQL NULLs and collect each
column's encoded bytes.  The accumulated `values` vector is rebuilt
from empty each row, exactly as the source's `values = vec![]` reset
leaves it. -/
def processColumns (tzDiffSeconds : Int) :
    List ColumnType → List Fetched → Nat → List Bool →
    Option (List Bool × List (List Nat))
  | [], [], _, nulls => Option.some (nulls, [])
  | ct :: cts, f :: fs, i, nulls =>
    match extractValue ct tzDiffSeconds f with
    | Option.none => Option.none
    | Option.some (isNull, bytes) =>
      let nulls2 := if isNull then nulls.set i true else nulls
      match processColumns tzDiffSeconds cts fs (i + 1) nulls2 with
      | Option.none => Option.none
      | Option.some (nullsOut, vs) => Option.some (nullsOut, bytes :: vs)
  | _, _, _, _ => Option.none

/-- The `while let Some(cursor) = stmt.fetch()` loop of `extract`
(src/lib.rs lines 75-423): for each row, encode the columns, build the
bitmap, write the `u32` row size, the bitmap and the flattened values
(all three write results are discarded by the source), then continue
with `values` cleared but `nulls` NOT reset. -/
def rowLoop (s : Sink) (tzDiffSeconds : Int) (cts : List ColumnType) :
    SinkState → List Bool → List (List Fetched) → SinkState × Except Unit Unit
  | st, _, [] => (st, Except.ok ())
  | st, nulls, row :: rest =>
    match processColumns tzDiffSeconds cts row 0 nulls with
    | Option.none => (st, Except.error ())
    | Option.some (nulls2, values) =>
      let bitmap := create_nulls_bitmap (Int.ofNat cts.length) nulls2
      let row_size :=
        (bitmap.length + values.foldl (fun acc x => acc + x.length) 0) % 2 ^ 32
      let flattened := values.flatten
      let st1 := (sink_write s st (u32leBytes row_size)).1
      let st2 := (sink_write s st1 bitmap).1
      let st3 := (sink_write s st2 flattened).1
      rowLoop s tzDiffSeconds cts st3 nulls2 rest

/-- The `Data` branch of the `match` on the data query (src/lib.rs
lines 64-423): create the file, write the magic and the column
definitions (both write results discarded), initialise `nulls` to
all-false once, and run the row loop. -/
def dataBranch (s : Sink) (tzDiffSeconds : Int) (cts : List ColumnType)
    (rows : List (List Fetched)) : SinkState × Except Unit Unit :=
  let st0 : SinkState := ⟨0, []⟩
  let st1 := (sink_write s st0 FILE_HEADER).1
  let st2 := (sink_write s st1 (generate_column_definitions cts)).1
  rowLoop s tzDiffSeconds cts st2 (List.replicate cts.length false) rows

/-- Result of `stmt.exec_direct` for the data query: a cursor or
`NoData`. -/
inductive QueryResult where
  | noData
  | data (rows : List (List Fetched))

/-- The tail of `extract` (src/lib.rs lines 62-427): on `NoData` the
source prints a message and falls through to `Ok(())` without ever
creating the output file; on `Data` the file is created and the data
branch runs, with `?`-propagated errors surfacing.  The first
component is the created file's final state, `Option.none` when no
file was created. -/
def extractModel (s : Sink) (tzDiffSeconds : Int) (cts : List ColumnType)
    (qr : QueryResult) : Option SinkState × Except Unit Unit :=
  match qr with
  | QueryResult.noData => (Option.none, Except.ok ())
  | QueryResult.data rows =>
    let r := dataBranch s tzDiffSeconds cts rows
    (Option.some r.1, r.2)

/- ------------------------------------------------------------------ -/
/- `get_column_types` and the metadata path.                           -/
/- ------------------------------------------------------------------ -/

/-- Result of `stmt.exec_direct` for the metadata query: a cursor
whose rows are per-column string fetches (`None` for SQL NULL), or
`NoData`. -/
inductive MetaResult where
  | noData
  | data (rows : List (List (Option String)))

/-- `get_column_types` (src/lib.rs lines 502-532): on `NoData` the
source prints "no data returned" and returns `Ok` with the (empty)
accumulated vector; on `Data` each fetched row becomes a `ColumnType`
(NULL cells read as ""), with any `ColumnType::new` panic surfacing as
`Option.none`.  A cursor with zero rows likewise yields `Ok(vec![])`. -/
def get_column_types (mr : MetaResult) : Option (List ColumnType) :=
  match mr with
  | MetaResult.noData => Option.some []
  | MetaResult.data rows =>
    rows.mapM (fun r => ColumnType.new (r.map (fun v => v.getD "")))

/-- `extract` from the metadata query onward: obtain the column types
(line 47), then run the data query and the output branch.  Errors from
`get_column_types` propagate via `?`. -/
def extractRun (s : Sink) (tzDiffSeconds : Int) (mr : MetaResult)
    (qr : QueryResult) : Option (Option SinkState × Except Unit Unit) :=
  (get_column_types mr).map (fun cts => extractModel s tzDiffSeconds cts qr)

/- ------------------------------------------------------------------ -/
/- Helper lemmas.                                                      -/
/- ------------------------------------------------------------------ -/

/-- Each serialized on-wire width contributes exactly four bytes. -/
theorem widths_join_length (cts : List ColumnType) :
    ((cts.map (fun ct => u32leBytes (onWireWidth ct))).flatten).length = 4 * cts.length := by
  induction cts with
  | nil => rfl
  | cons c t ih =>
    rw [show ((c :: t).map (fun ct => u32leBytes (onWireWidth ct))).flatten =
        u32leBytes (onWireWidth c) ++ (t.map (fun ct => u32leBytes (onWireWidth ct))).flatten
      from rfl]
    rw [List.length_append, ih, show (u32leBytes (onWireWidth c)).length = 4 from rfl]
    rw [List.length_cons]
    ring

/-- The descriptor block before its length prefix holds `5 + 4C` bytes. -/
theorem descriptor_block_length (cts : List ColumnType) :
    (descriptorBytes cts).length = 5 + 4 * cts.length := by
  unfold descriptorBytes
  rw [List.length_append, List.length_append, List.length_append, widths_join_length]
  rfl

/-- Joining `n` copies of an eight-byte zero block gives `8 * n` zeros. -/
theorem join_const_replicate (n : Nat) :
    ((List.range n).map (fun _ => List.replicate 8 (0 : Nat))).flatten =
      List.replicate (8 * n) 0 := by
  induction n with
  | zero => rfl
  | succ m ih =>
    rw [List.range_succ, List.map_append, List.flatten_append, ih]
    rw [show ((([m].map (fun _ => List.replicate 8 (0 : Nat)))).flatten) =
        List.replicate 8 (0 : Nat) ++ [] from rfl]
    rw [List.append_nil, ← List.replicate_add, show 8 * (m + 1) = 8 * m + 8 from by ring]

/-- Chunking a `w`-byte zero buffer into reversed 8-byte windows keeps
only the `w / 8` complete windows. -/
theorem chunks_of_zero_buffer (w : Nat) :
    ((List.range (w / 8)).map
      (fun i => (((List.replicate w (0 : Nat)).drop (i * 8)).take 8).reverse)).flatten =
      List.replicate (8 * (w / 8)) 0 := by
  have hmap : ∀ i ∈ List.range (w / 8),
      (((List.replicate w (0 : Nat)).drop (i * 8)).take 8).reverse =
        List.replicate 8 (0 : Nat) := by
    intro i hi
    have hilt : i < w / 8 := List.mem_range.mp hi
    have hle : 8 ≤ w - i * 8 := by omega
    rw [List.drop_replicate, List.take_replicate, List.reverse_replicate]
    congr 1
    omega
  rw [List.map_congr_left hmap, join_const_replicate]

/-- The result returned by the row loop depends only on the fetched
rows and the column metadata — never on which writes succeed, nor on
the sink state. -/
theorem rowLoop_result_ignores_sink (tz : Int) (cts : List ColumnType) :
    ∀ (rows : List (List Fetched)) (s₁ s₂ : Sink) (st₁ st₂ : SinkState)
      (nulls : List Bool),
      (rowLoop s₁ tz cts st₁ nulls rows).2 = (rowLoop s₂ tz cts st₂ nulls rows).2 := by
  intro rows
  induction rows with
  | nil => intro s₁ s₂ st₁ st₂ nulls; rfl
  | cons row rest ih =>
    intro s₁ s₂ st₁ st₂ nulls
    show (rowLoop s₁ tz cts st₁ nulls (row :: rest)).2 =
      (rowLoop s₂ tz cts st₂ nulls (row :: rest)).2
    unfold rowLoop
    cases hp : processColumns tz cts row 0 nulls with
    | none => rfl
    | some p =>
      cases p with
      | mk nulls2 values => exact ih s₁ s₂ _ _ nulls2

/- ------------------------------------------------------------------ -/
/- Claim theorems.                                                     -/
/- ------------------------------------------------------------------ -/

/-- Claim C1.  The null-bitmap builder does NOT emit `⌈C/8⌉` bytes:
its emission loop runs over `nulls.len() / 8` complete chunks only, so
for `C = 1` with a null column it emits zero bytes instead of the one
byte `0x80` the claim (and the file format) requires.  The source's
own unused `bytes_needed` value computes the intended `⌈C/8⌉ = 1`. -/
theorem create_nulls_bitmap_drops_partial_chunk :
    create_nulls_bitmap 1 [true] = [] ∧ bytes_needed 1 = 1 ∧
      create_nulls_bitmap 1 [true] ≠ [128] := by
  refine ⟨rfl, by decide, by decide⟩

/-- Claim C2, as claimed: FALSE.  For a single integer column the
header's `u32` length prefix encodes `9 = 5 + 4·1`, not `12 = 8 + 4·1`. -/
theorem header_length_not_8_plus_4C :
    (generate_column_definitions
        [⟨"c1", SqlDataType.Integer, 8, Option.none, Option.none⟩]).take 4 ≠
      u32leBytes (8 + 4 * 1) := by
  decide

/-- Claim C2, amended.  For every column list of length `C`, the `u32`
length prefix of the column descriptor block equals `5 + 4C`: the
block contains the `u16` version, one filler byte, the `u16` column
count and one `u32` width per column. -/
theorem header_length_prefix_eq (cts : List ColumnType) :
    (generate_column_definitions cts).take 4 = u32leBytes (5 + 4 * cts.length) := by
  unfold generate_column_definitions
  rw [descriptor_block_length]
  rfl

/-- Claim C3.  The Numeric encoder does NOT parse the fetched text as
a signed 128-bit integer: it uses `u128::from_str`, so the negative
decimal text "-1" fails to parse and the whole export errors instead
of reaching the pad-byte complement step (`num < 0` on a `u128` can
never hold, leaving `negate` unreachable). -/
theorem numeric_rejects_negative_text :
    numeric_encode "-1" Option.none 8 = Option.none ∧
      parseU128 "-1" = Option.none := by
  refine ⟨by decide, by decide⟩

/-- Claim C4.  The `nulls` vector is NOT reset between rows: with
eight integer columns, a first row of SQL NULLs and a second row of
non-null integers, the byte written as the second row's null bitmap
(offset 61 of the output: 11 magic + 41 header + 5 first row + 4 row
size) is `0xFF`, identical to the first row's bitmap at offset 56,
although a per-row reset would give `0x00`. -/
theorem nulls_vector_is_sticky_across_rows :
    ((dataBranch ⟨fun _ => true⟩ 0 (List.replicate 8 ⟨"c", SqlDataType.Integer, 8, Option.none, Option.none⟩)
        [List.replicate 8 Fetched.null, List.replicate 8 (Fetched.int 1)]).1.written.get? 56 =
      Option.some 255) ∧
    ((dataBranch ⟨fun _ => true⟩ 0 (List.replicate 8 ⟨"c", SqlDataType.Integer, 8, Option.none, Option.none⟩)
        [List.replicate 8 Fetched.null, List.replicate 8 (Fetched.int 1)]).1.written.get? 61 =
      Option.some 255) ∧
    (Option.some 255 ≠ (Option.some 0 : Option Nat)) := by
  refine ⟨by decide, by decide, by decide⟩

/-- Claim C5.  A column-metadata query returning zero rows does NOT
fail with `TableNotFound`: `get_column_types` returns `Ok` with an
empty column list (both for an empty cursor and for `NoData`), and the
export proceeds to create the output file, write a zero-column header
and report success. -/
theorem empty_metadata_returns_ok_empty :
    get_column_types (MetaResult.data []) = Option.some [] ∧
    get_column_types MetaResult.noData = Option.some [] ∧
    extractRun ⟨fun _ => true⟩ 0 (MetaResult.data []) (QueryResult.data []) =
      Option.some (Option.some ⟨2, FILE_HEADER ++ generate_column_definitions []⟩,
        Except.ok ()) := by
  refine ⟨rfl, rfl, rfl⟩

/-- Claim C6.  Write errors are NOT surfaced: the result `extract`
returns is identical whichever write calls fail (all `write` /
`write_all` return values are discarded by the source), so a failing
header or row write never aborts the export. -/
theorem write_failures_never_surface (s₁ s₂ : Sink) (tz : Int)
    (cts : List ColumnType) (qr : QueryResult) :
    (extractModel s₁ tz cts qr).2 = (extractModel s₂ tz cts qr).2 := by
  cases qr with
  | noData => rfl
  | data rows =>
    show (dataBranch s₁ tz cts rows).2 = (dataBranch s₂ tz cts rows).2
    unfold dataBranch
    exact rowLoop_result_ignores_sink tz cts rows s₁ s₂ _ _ _

/-- Claim C7, as claimed: FALSE.  Encoding the Numeric text "0" at
declared width `4` yields no bytes at all (the chunking loop emits
only complete 8-byte windows), not four zero bytes. -/
theorem numeric_zero_width4_not_4_zeros :
    numeric_encode "0" Option.none 4 ≠ Option.some (List.replicate 4 0) := by
  decide

/-- Claim C7, amended.  For every scale and every declared width `W`,
encoding the Numeric text "0" yields exactly `8 * ⌊W/8⌋` zero bytes —
equal to `W` zero bytes exactly when `W` is a multiple of 8 (which
holds for every width the header generator derives from a precision). -/
theorem numeric_zero_encodes_as_zero_bytes (scale : Option Nat) (width : Nat) :
    numeric_encode "0" scale width =
      Option.some (List.replicate (8 * (width / 8)) 0) := by
  unfold numeric_encode
  rw [show parseU128 "0" = Option.some 0 from rfl]
  simp only [Nat.zero_mul, Nat.zero_mod]
  rw [show ((u128beBytes 0).reverse.dropWhile (fun b => b = 0)).reverse = ([] : List Nat)
    from by decide]
  simp only [List.length_nil, Nat.not_lt_zero, if_false, Nat.sub_zero, List.append_nil,
    Nat.lt_irrefl, List.length_replicate]
  rw [chunks_of_zero_buffer]

/-- Claim C9.  The TimestampTz arm of the value encoder is the very
same arm as the Timestamp arm, so the two produce identical output on
every fetched value, and every non-null timestamp encoding is exactly
eight bytes (microseconds since 2000-01-01T00:00:00, little-endian,
overflow mapped to 0). -/
theorem timestamptz_encodes_like_timestamp :
    (∀ (name : String) (w : Nat) (p sc : Option Nat) (tz : Int) (f : Fetched),
      extractValue ⟨name, SqlDataType.Timestamp, w, p, sc⟩ tz f =
        extractValue ⟨name, SqlDataType.TimestampTz, w, p, sc⟩ tz f) ∧
    (∀ (y : Int) (mo d h mi s frac : Nat) (bs : List Nat),
      timestampBytes y mo d h mi s frac = Option.some bs → bs.length = 8) := by
  constructor
  · intro name w p sc tz f
    cases f <;> rfl
  · intro y mo d h mi s frac bs hbs
    unfold timestampBytes at hbs
    by_cases hc : (validYmd y mo d ∧ h < 24 ∧ mi < 60 ∧ s < 60 ∧ frac < 1000000000)
    · rw [if_pos hc] at hbs
      cases hbs
      rfl
    · rw [if_neg hc] at hbs
      cases hbs

/-- Witness for C9 at the epoch timestamp. -/
theorem timestamptz_encodes_like_timestamp_witness :
    extractValue ⟨"t", SqlDataType.Timestamp, 8, Option.none, Option.none⟩ 0
        (Fetched.timestamp 2000 1 1 0 0 0 0) =
      extractValue ⟨"t", SqlDataType.TimestampTz, 8, Option.none, Option.none⟩ 0
        (Fetched.timestamp 2000 1 1 0 0 0 0) ∧
    (i64leBytes 0).length = 8 :=
  ⟨timestamptz_encodes_like_timestamp.1 "t" 8 Option.none Option.none 0
      (Fetched.timestamp 2000 1 1 0 0 0 0),
   timestamptz_encodes_like_timestamp.2 2000 1 1 0 0 0 0 (i64leBytes 0) (by decide)⟩

/-- Claim C10.  When the data query yields `NoData`, `extract` returns
`Ok` without creating the output file; the file (and with it the
header) only comes into being in the `Data` branch. -/
theorem nodata_leaves_no_file (s : Sink) (tz : Int) (cts : List ColumnType) :
    extractModel s tz cts QueryResult.noData = (Option.none, Except.ok ()) ∧
    ∀ rows, ((extractModel s tz cts (QueryResult.data rows)).1).isSome = true := by
  exact ⟨rfl, fun rows => rfl⟩

/- ------------------------------------------------------------------ -/
/- Characterization of the greedy parenthesis match (for claim C8).    -/
/- ------------------------------------------------------------------ -/

/-- `ValidMatch l i e` says the pattern `\(.+\)` can match the span
`[i, e]` of `l`: an open parenthesis at `i`, a close parenthesis at
`e`, at least one character in between, and no newline strictly
between them. -/
def ValidMatch (l : List Char) (i e : Nat) : Prop :=
  l.get? i = Option.some '(' ∧ l.get? e = Option.some ')' ∧ i + 2 ≤ e ∧
    ∀ k, i < k → k < e → l.get? k ≠ Option.some '\n'

/-- Soundness of `scanClose`: the returned index holds a close
parenthesis and no newline occurs before it. -/
theorem scanClose_sound :
    ∀ (l : List Char) (j : Nat), scanClose l = Option.some j →
      l.get? j = Option.some ')' ∧ ∀ k, k < j → l.get? k ≠ Option.some '\n' := by
  intro l
  induction l with
  | nil => intro j h; cases h
  | cons x xs ih =>
    intro j h
    unfold scanClose at h
    by_cases hx : x = '\n'
    · rw [if_pos hx] at h; cases h
    · rw [if_neg hx] at h
      cases hs : scanClose xs with
      | some j0 =>
        rw [hs] at h
        injection h with hj
        subst hj
        refine ⟨(ih j0 hs).1, ?_⟩
        intro k hk
        cases k with
        | zero =>
          intro hcontra
          injection hcontra with hcx
          exact hx hcx
        | succ k0 => exact (ih j0 hs).2 k0 (by omega)
      | none =>
        rw [hs] at h
        by_cases hp : x = ')'
        · rw [if_pos hp] at h
          injection h with hj
          subst hj
          refine ⟨by simpa using congrArg Option.some hp, ?_⟩
          intro k hk
          omega
        · rw [if_neg hp] at h; cases h

/-- Completeness of `scanClose`: when it fails, every close
parenthesis is preceded by a newline. -/
theorem scanClose_complete :
    ∀ (l : List Char), scanClose l = Option.none →
      ∀ q, l.get? q = Option.some ')' →
        ∃ k, k < q ∧ l.get? k = Option.some '\n' := by
  intro l
  induction l with
  | nil => intro _ q hq; cases q <;> cases hq
  | cons x xs ih =>
    intro h q hq
    unfold scanClose at h
    by_cases hx : x = '\n'
    · cases q with
      | zero =>
        injection hq with hq0
        rw [hq0] at hx
        cases hx
      | succ q0 =>
        exact ⟨0, by omega, by simpa using congrArg Option.some hx⟩
    · rw [if_neg hx] at h
      cases hs : scanClose xs with
      | some j0 => rw [hs] at h; cases h
      | none =>
        rw [hs] at h
        by_cases hp : x = ')'
        · rw [if_pos hp] at h; cases h
        · cases q with
          | zero =>
            injection hq with hq0
            rw [hq0] at hp
            cases hp rfl
          | succ q0 =>
            obtain ⟨k, hk, hknl⟩ := ih hs q0 (by simpa using hq)
            exact ⟨k + 1, by omega, by simpa using hknl⟩

/-- Maximality of `scanClose`: any close parenthesis beyond the
returned index is cut off by a newline. -/
theorem scanClose_max :
    ∀ (l : List Char) (j : Nat), scanClose l = Option.some j →
      ∀ q, j < q → l.get? q = Option.some ')' →
        ∃ k, k < q ∧ l.get? k = Option.some '\n' := by
  intro l
  induction l with
  | nil => intro j h; cases h
  | cons x xs ih =>
    intro j h q hjq hq
    unfold scanClose at h
    by_cases hx : x = '\n'
    · rw [if_pos hx] at h; cases h
    · rw [if_neg hx] at h
      cases hs : scanClose xs with
      | some j0 =>
        rw [hs] at h
        injection h with hj
        subst hj
        cases q with
        | zero => omega
        | succ q0 =>
          obtain ⟨k, hk, hknl⟩ := ih j0 hs q0 (by omega) (by simpa using hq)
          exact ⟨k + 1, by omega, by simpa using hknl⟩
      | none =>
        rw [hs] at h
        by_cases hp : x = ')'
        · rw [if_pos hp] at h
          injection h with hj
          subst hj
          cases q with
          | zero => omega
          | succ q0 =>
            obtain ⟨k, hk, hknl⟩ := scanClose_complete xs hs q0 (by simpa using hq)
            exact ⟨k + 1, by omega, by simpa using hknl⟩
        · rw [if_neg hp] at h; cases h

/-- Soundness of `matchEnd`. -/
theorem matchEnd_sound (rest : List Char) (j : Nat)
    (h : matchEnd rest = Option.some j) :
    1 ≤ j ∧ rest.get? j = Option.some ')' ∧
      ∀ k, k < j → rest.get? k ≠ Option.some '\n' := by
  unfold matchEnd at h
  cases hs : scanClose rest with
  | some j0 =>
    rw [hs] at h
    have h2 : (if 1 ≤ j0 then Option.some j0 else Option.none) = Option.some j := h
    by_cases h1 : 1 ≤ j0
    · rw [if_pos h1] at h2
      injection h2 with hj
      subst hj
      exact ⟨h1, (scanClose_sound rest j0 hs).1, (scanClose_sound rest j0 hs).2⟩
    · rw [if_neg h1] at h2; cases h2
  | none =>
    rw [hs] at h
    exact Option.noConfusion h

/-- Maximality of `matchEnd`. -/
theorem matchEnd_max (rest : List Char) (j : Nat)
    (h : matchEnd rest = Option.some j) :
    ∀ q, j < q → rest.get? q = Option.some ')' →
      ∃ k, k < q ∧ rest.get? k = Option.some '\n' := by
  unfold matchEnd at h
  cases hs : scanClose rest with
  | some j0 =>
    rw [hs] at h
    have h2 : (if 1 ≤ j0 then Option.some j0 else Option.none) = Option.some j := h
    by_cases h1 : 1 ≤ j0
    · rw [if_pos h1] at h2
      injection h2 with hj
      subst hj
      exact scanClose_max rest j0 hs
    · rw [if_neg h1] at h2; cases h2
  | none =>
    rw [hs] at h
    exact Option.noConfusion h

/-- Completeness of `matchEnd`: when it fails, no close parenthesis at
index `1` or later is reachable without crossing a newline. -/
theorem matchEnd_none (rest : List Char)
    (h : matchEnd rest = Option.none) :
    ∀ q, 1 ≤ q → rest.get? q = Option.some ')' →
      ∃ k, k < q ∧ rest.get? k = Option.some '\n' := by
  unfold matchEnd at h
  cases hs : scanClose rest with
  | some j0 =>
    rw [hs] at h
    have h2 : (if 1 ≤ j0 then Option.some j0 else Option.none) = Option.none := h
    by_cases h1 : 1 ≤ j0
    · rw [if_pos h1] at h2; cases h2
    · intro q hq hq2
      exact scanClose_max rest j0 hs q (by omega) hq2
  | none =>
    intro q _ hq2
    exact scanClose_complete rest hs q hq2

/-- Shifting a valid match into the tail of a cons cell. -/
theorem validMatch_cons_shift (c : Char) (l : List Char) (i e : Nat) :
    ValidMatch (c :: l) (i + 1) (e + 1) ↔ ValidMatch l i e := by
  unfold ValidMatch
  constructor
  · rintro ⟨h1, h2, h3, h4⟩
    refine ⟨by simpa using h1, by simpa using h2, by omega, ?_⟩
    intro k hk1 hk2
    have := h4 (k + 1) (by omega) (by omega)
    simpa using this
  · rintro ⟨h1, h2, h3, h4⟩
    refine ⟨by simpa using h1, by simpa using h2, by omega, ?_⟩
    intro k hk1 hk2
    cases k with
    | zero => omega
    | succ k0 =>
      have := h4 k0 (by omega) (by omega)
      simpa using this

/-- A valid match starting at the head of a cons cell decomposes into
the head being `(` and a reachable close parenthesis in the tail. -/
theorem validMatch_cons_zero (c : Char) (l : List Char) (e : Nat) :
    ValidMatch (c :: l) 0 e ↔
      c = '(' ∧ ∃ j, e = j + 1 ∧ 1 ≤ j ∧ l.get? j = Option.some ')' ∧
        ∀ k, k < j → l.get? k ≠ Option.some '\n' := by
  unfold ValidMatch
  constructor
  · rintro ⟨h1, h2, h3, h4⟩
    have hc : c = '(' := by
      simpa using h1
    cases e with
    | zero => omega
    | succ j =>
      refine ⟨hc, j, rfl, by omega, by simpa using h2, ?_⟩
      intro k hk
      have := h4 (k + 1) (by omega) (by omega)
      simpa using this
  · rintro ⟨hc, j, he, hj1, hj2, hj3⟩
    subst he
    refine ⟨by simpa using congrArg Option.some hc, by simpa using hj2, by omega, ?_⟩
    intro k hk1 hk2
    cases k with
    | zero => omega
    | succ k0 =>
      have := hj3 k0 (by omega)
      simpa using this

/-- Soundness of `findMatch`: a reported span is a valid `\(.+\)`
match. -/
theorem findMatch_sound :
    ∀ (l : List Char) (i e : Nat), findMatch l = Option.some (i, e) →
      ValidMatch l i e := by
  intro l
  induction l with
  | nil => intro i e h; cases h
  | cons c rest ih =>
    intro i e h
    unfold findMatch at h
    by_cases hc : c = '('
    · rw [if_pos hc] at h
      cases hm : matchEnd rest with
      | some j =>
        rw [hm] at h
        have h2 : (Option.some (0, j + 1) : Option (Nat × Nat)) = Option.some (i, e) := h
        injection h2 with h3
        injection h3 with hi he
        subst hi
        subst he
        obtain ⟨hj1, hj2, hj3⟩ := matchEnd_sound rest j hm
        rw [validMatch_cons_zero]
        exact ⟨hc, j, rfl, hj1, hj2, hj3⟩
      | none =>
        rw [hm] at h
        have h2 : (findMatch rest).map (fun p => (p.1 + 1, p.2 + 1)) =
          Option.some (i, e) := h
        cases hf : findMatch rest with
        | none => rw [hf] at h2; cases h2
        | some p =>
          obtain ⟨i0, e0⟩ := p
          rw [hf] at h2
          have h3 : (Option.some (i0 + 1, e0 + 1) : Option (Nat × Nat)) =
            Option.some (i, e) := h2
          injection h3 with h4
          injection h4 with hi he
          subst hi
          subst he
          exact (validMatch_cons_shift c rest i0 e0).mpr (ih i0 e0 hf)
    · rw [if_neg hc] at h
      have h2 : (findMatch rest).map (fun p => (p.1 + 1, p.2 + 1)) =
        Option.some (i, e) := h
      cases hf : findMatch rest with
      | none => rw [hf] at h2; cases h2
      | some p =>
        obtain ⟨i0, e0⟩ := p
        rw [hf] at h2
        have h3 : (Option.some (i0 + 1, e0 + 1) : Option (Nat × Nat)) =
          Option.some (i, e) := h2
        injection h3 with h4
        injection h4 with hi he
        subst hi
        subst he
        exact (validMatch_cons_shift c rest i0 e0).mpr (ih i0 e0 hf)

/-- Completeness of `findMatch`: when it reports no match, no valid
`\(.+\)` match exists anywhere in the input. -/
theorem findMatch_none :
    ∀ (l : List Char), findMatch l = Option.none →
      ∀ i e, ¬ ValidMatch l i e := by
  intro l
  induction l with
  | nil =>
    intro _ i e hv
    obtain ⟨h1, _, _, _⟩ := hv
    cases i <;> cases h1
  | cons c rest ih =>
    intro h i e hv
    unfold findMatch at h
    by_cases hc : c = '('
    · rw [if_pos hc] at h
      cases hm : matchEnd rest with
      | some j =>
        rw [hm] at h
        have h2 : (Option.some (0, j + 1) : Option (Nat × Nat)) = Option.none := h
        cases h2
      | none =>
        rw [hm] at h
        have h2 : (findMatch rest).map (fun p => (p.1 + 1, p.2 + 1)) =
          (Option.none : Option (Nat × Nat)) := h
        cases hf : findMatch rest with
        | some p =>
          rw [hf] at h2
          cases h2
        | none =>
          cases i with
          | zero =>
            rw [validMatch_cons_zero] at hv
            obtain ⟨_, j', _, hj1, hj2, hj3⟩ := hv
            obtain ⟨k, hk, hknl⟩ := matchEnd_none rest hm j' hj1 hj2
            exact hj3 k hk hknl
          | succ i0 =>
            cases e with
            | zero =>
              obtain ⟨_, _, h3, _⟩ := hv
              omega
            | succ e0 =>
              exact ih hf i0 e0 ((validMatch_cons_shift c rest i0 e0).mp hv)
    · rw [if_neg hc] at h
      have h2 : (findMatch rest).map (fun p => (p.1 + 1, p.2 + 1)) =
        (Option.none : Option (Nat × Nat)) := h
      cases hf : findMatch rest with
      | some p =>
        rw [hf] at h2
        cases h2
      | none =>
        cases i with
        | zero =>
          have hch : c = '(' := by simpa using hv.1
          exact hc hch
        | succ i0 =>
          cases e with
          | zero =>
            obtain ⟨_, _, h3, _⟩ := hv
            omega
          | succ e0 =>
            exact ih hf i0 e0 ((validMatch_cons_shift c rest i0 e0).mp hv)

/-- Greedy maximality of `findMatch`: among valid matches at the
reported start, the reported end is the largest. -/
theorem findMatch_max :
    ∀ (l : List Char) (i e : Nat), findMatch l = Option.some (i, e) →
      ∀ e', ValidMatch l i e' → e' ≤ e := by
  intro l
  induction l with
  | nil => intro i e h; cases h
  | cons c rest ih =>
    intro i e h e' hv
    unfold findMatch at h
    by_cases hc : c = '('
    · rw [if_pos hc] at h
      cases hm : matchEnd rest with
      | some j =>
        rw [hm] at h
        have h2 : (Option.some (0, j + 1) : Option (Nat × Nat)) = Option.some (i, e) := h
        injection h2 with h3
        injection h3 with hi he
        subst hi
        subst he
        rw [validMatch_cons_zero] at hv
        obtain ⟨_, j', he', hj1, hj2, hj3⟩ := hv
        subst he'
        by_cases hgt : j < j'
        · obtain ⟨k, hk, hknl⟩ := matchEnd_max rest j hm j' hgt hj2
          exact absurd hknl (hj3 k hk)
        · omega
      | none =>
        rw [hm] at h
        have h2 : (findMatch rest).map (fun p => (p.1 + 1, p.2 + 1)) =
          Option.some (i, e) := h
        cases hf : findMatch rest with
        | none => rw [hf] at h2; cases h2
        | some p =>
          obtain ⟨i0, e0⟩ := p
          rw [hf] at h2
          have h3 : (Option.some (i0 + 1, e0 + 1) : Option (Nat × Nat)) =
            Option.some (i, e) := h2
          injection h3 with h4
          injection h4 with hi he
          subst hi
          subst he
          cases e' with
          | zero =>
            obtain ⟨_, _, h5, _⟩ := hv
            omega
          | succ e1 =>
            have := ih i0 e0 hf e1 ((validMatch_cons_shift c rest i0 e1).mp hv)
            omega
    · rw [if_neg hc] at h
      have h2 : (findMatch rest).map (fun p => (p.1 + 1, p.2 + 1)) =
        Option.some (i, e) := h
      cases hf : findMatch rest with
      | none => rw [hf] at h2; cases h2
      | some p =>
        obtain ⟨i0, e0⟩ := p
        rw [hf] at h2
        have h3 : (Option.some (i0 + 1, e0 + 1) : Option (Nat × Nat)) =
          Option.some (i, e) := h2
        injection h3 with h4
        injection h4 with hi he
        subst hi
        subst he
        cases e' with
        | zero =>
          obtain ⟨_, _, h5, _⟩ := hv
          omega
        | succ e1 =>
          have := ih i0 e0 hf e1 ((validMatch_cons_shift c rest i0 e1).mp hv)
          omega

/-- Leftmostness of `findMatch`: no valid match starts before the
reported start. -/
theorem findMatch_left :
    ∀ (l : List Char) (i e : Nat), findMatch l = Option.some (i, e) →
      ∀ i' e', ValidMatch l i' e' → i ≤ i' := by
  intro l
  induction l with
  | nil => intro i e h; cases h
  | cons c rest ih =>
    intro i e h i' e' hv
    unfold findMatch at h
    by_cases hc : c = '('
    · rw [if_pos hc] at h
      cases hm : matchEnd rest with
      | some j =>
        rw [hm] at h
        have h2 : (Option.some (0, j + 1) : Option (Nat × Nat)) = Option.some (i, e) := h
        injection h2 with h3
        injection h3 with hi he
        subst hi
        omega
      | none =>
        rw [hm] at h
        have h2 : (findMatch rest).map (fun p => (p.1 + 1, p.2 + 1)) =
          Option.some (i, e) := h
        cases hf : findMatch rest with
        | none => rw [hf] at h2; cases h2
        | some p =>
          obtain ⟨i0, e0⟩ := p
          rw [hf] at h2
          have h3 : (Option.some (i0 + 1, e0 + 1) : Option (Nat × Nat)) =
            Option.some (i, e) := h2
          injection h3 with h4
          injection h4 with hi he
          subst hi
          subst he
          cases i' with
          | zero =>
            rw [validMatch_cons_zero] at hv
            obtain ⟨_, j', _, hj1, hj2, hj3⟩ := hv
            obtain ⟨k, hk, hknl⟩ := matchEnd_none rest hm j' hj1 hj2
            exact absurd hknl (hj3 k hk)
          | succ i1 =>
            cases e' with
            | zero =>
              obtain ⟨_, _, h5, _⟩ := hv
              omega
            | succ e1 =>
              have := ih i0 e0 hf i1 e1 ((validMatch_cons_shift c rest i1 e1).mp hv)
              omega
    · rw [if_neg hc] at h
      have h2 : (findMatch rest).map (fun p => (p.1 + 1, p.2 + 1)) =
        Option.some (i, e) := h
      cases hf : findMatch rest with
      | none => rw [hf] at h2; cases h2
      | some p =>
        obtain ⟨i0, e0⟩ := p
        rw [hf] at h2
        have h3 : (Option.some (i0 + 1, e0 + 1) : Option (Nat × Nat)) =
          Option.some (i, e) := h2
        injection h3 with h4
        injection h4 with hi he
        subst hi
        subst he
        cases i' with
        | zero =>
          have hch : c = '(' := by simpa using hv.1
          exact absurd hch hc
        | succ i1 =>
          cases e' with
          | zero =>
            obtain ⟨_, _, h5, _⟩ := hv
            omega
          | succ e1 =>
            have := ih i0 e0 hf i1 e1 ((validMatch_cons_shift c rest i1 e1).mp hv)
            omega

/-- The token match of `from_string` succeeds exactly on the 14
token/tag pairs of `tokenTable`. -/
theorem tokenOf_iff_mem (t : String) (d : SqlDataType) :
    tokenOf t = Option.some d ↔ (t, d) ∈ tokenTable := by
  constructor
  · intro h
    unfold tokenOf at h
    by_cases h1 : t = "int"
    · rw [if_pos h1] at h
      injection h with hd
      subst hd
      subst h1
      decide
    · rw [if_neg h1] at h
      by_cases h2 : t = "float"
      · rw [if_pos h2] at h
        injection h with hd
        subst hd
        subst h2
        decide
      · rw [if_neg h2] at h
        by_cases h3 : t = "char"
        · rw [if_pos h3] at h
          injection h with hd
          subst hd
          subst h3
          decide
        · rw [if_neg h3] at h
          by_cases h4 : t = "varchar"
          · rw [if_pos h4] at h
            injection h with hd
            subst hd
            subst h4
            decide
          · rw [if_neg h4] at h
            by_cases h5 : t = "boolean"
            · rw [if_pos h5] at h
              injection h with hd
              subst hd
              subst h5
              decide
            · rw [if_neg h5] at h
              by_cases h6 : t = "date"
              · rw [if_pos h6] at h
                injection h with hd
                subst hd
                subst h6
                decide
              · rw [if_neg h6] at h
                by_cases h7 : t = "timestamp"
                · rw [if_pos h7] at h
                  injection h with hd
                  subst hd
                  subst h7
                  decide
                · rw [if_neg h7] at h
                  by_cases h8 : t = "timestamptz"
                  · rw [if_pos h8] at h
                    injection h with hd
                    subst hd
                    subst h8
                    decide
                  · rw [if_neg h8] at h
                    by_cases h9 : t = "time"
                    · rw [if_pos h9] at h
                      injection h with hd
                      subst hd
                      subst h9
                      decide
                    · rw [if_neg h9] at h
                      by_cases h10 : t = "timetz"
                      · rw [if_pos h10] at h
                        injection h with hd
                        subst hd
                        subst h10
                        decide
                      · rw [if_neg h10] at h
                        by_cases h11 : t = "varbinary"
                        · rw [if_pos h11] at h
                          injection h with hd
                          subst hd
                          subst h11
                          decide
                        · rw [if_neg h11] at h
                          by_cases h12 : t = "binary"
                          · rw [if_pos h12] at h
                            injection h with hd
                            subst hd
                            subst h12
                            decide
                          · rw [if_neg h12] at h
                            by_cases h13 : t = "numeric"
                            · rw [if_pos h13] at h
                              injection h with hd
                              subst hd
                              subst h13
                              decide
                            · rw [if_neg h13] at h
                              by_cases h14 : t = "interval"
                              · rw [if_pos h14] at h
                                injection h with hd
                                subst hd
                                subst h14
                                decide
                              · rw [if_neg h14] at h
                                exact Option.noConfusion h
  · intro h
    fin_cases h <;> rfl

/-- Claim C8, as claimed: FALSE.  The regex `\(.+\)` strips GREEDILY,
not non-greedily: on `"int(1)x(2)"` the source's classifier removes
`"(1)x(2)"` (first open parenthesis to the last close parenthesis) and
returns `Integer`, whereas a non-greedy strip of the first region
would leave `"intx(2)"` and fail with the unknown-data-type error. -/
theorem from_string_not_non_greedy :
    SqlDataType.from_string "int(1)x(2)" = Option.some SqlDataType.Integer ∧
    classifyNonGreedy "int(1)x(2)" = Option.none ∧
    SqlDataType.from_string "int(1)x(2)" ≠ classifyNonGreedy "int(1)x(2)" := by
  refine ⟨by decide, by decide, by decide⟩

/-- Claim C8, amended.  `from_string` strips the first parenthesized
region GREEDILY (leftmost viable open parenthesis, extending to the
last close parenthesis reachable without crossing a newline, with at
least one character between), lowercases the remainder, and maps it by
exact string equality to the 14 logical type tags, failing fatally on
any other token.  Conjuncts: the classifier is exactly this pipeline;
a found span is a valid match, end-maximal at its start, and
start-minimal overall; when no span is found no valid match exists;
and the token map succeeds exactly on the 14 table entries. -/
theorem from_string_strips_greedily :
    (∀ s, SqlDataType.from_string s =
      tokenOf (String.mk (toLowerStr (replaceFirst s.data)))) ∧
    (∀ (l : List Char) (i e : Nat), findMatch l = Option.some (i, e) →
      ValidMatch l i e ∧ (∀ e', ValidMatch l i e' → e' ≤ e) ∧
        (∀ i' e', ValidMatch l i' e' → i ≤ i')) ∧
    (∀ (l : List Char), findMatch l = Option.none → ∀ i e, ¬ ValidMatch l i e) ∧
    (∀ (t : String) (d : SqlDataType),
      tokenOf t = Option.some d ↔ (t, d) ∈ tokenTable) := by
  refine ⟨fun s => rfl, ?_, findMatch_none, tokenOf_iff_mem⟩
  intro l i e h
  exact ⟨findMatch_sound l i e h, findMatch_max l i e h, findMatch_left l i e h⟩

/-- Witness for the amended C8: the hypotheses are discharged on the
concrete inputs `"a(b)"` (a found match) and `"abc"` (no match). -/
theorem from_string_strips_greedily_witness :
    ValidMatch ("a(b)".data) 1 3 ∧ ¬ ValidMatch ("abc".data) 0 2 ∧
      (tokenOf "int" = Option.some SqlDataType.Integer ↔
        ("int", SqlDataType.Integer) ∈ tokenTable) :=
  ⟨(from_string_strips_greedily.2.1 ("a(b)".data) 1 3 (by decide)).1,
   from_string_strips_greedily.2.2.1 ("abc".data) (by decide) 0 2,
   from_string_strips_greedily.2.2.2 "int" SqlDataType.Integer⟩
